import Mathlib

/-!
# Verification of the trickster proxy caching core

A shallow embedding, in Lean 4, of the cache read/write pipeline of the
trickster reverse proxy (`pkg/proxy/engines/cache.go`), together with the
collaborating data model it consumes.  The pipeline functions `QueryCache`
and `WriteCache` are translated directly from the Go source; collaborators
whose source is not part of the snapshot (the byte-range algebra, the
lookup-status enumeration, the HTTP document model, header constants,
`deepSearch`) are modelled from the specification, and external libraries
(snappy, msgp serialization, the store) are abstracted as function
parameters, exactly as the pipeline observes them.
-/

/-! ## Byte-range algebra -/

/-- Modelled from the spec: `byterange.Range` from
`pkg/proxy/ranges/byterange`, absent from the snapshot.  A pair
`{start, end}` of integers, both inclusive; `Start = -1` marks a suffix
range meaning "last `End` bytes". -/
structure Range where
  Start : Int
  End : Int
deriving DecidableEq, Repr

/-- Modelled from the spec: `byterange.Ranges`, an ordered sequence of
ranges. -/
abbrev Ranges := List Range

/-- Modelled from the spec: suffix ranges (`start = -1`) are resolved
against the content length before any set arithmetic. -/
def Range.resolve (cl : Int) (r : Range) : Range :=
  if r.Start = -1 then { Start := cl - r.End, End := cl - 1 } else r

/-- Modelled from the spec: wanted ranges exceeding the content length are
clamped. -/
def Range.clamp (cl : Int) (r : Range) : Range :=
  { Start := max r.Start 0, End := min r.End (cl - 1) }

/-- Insert a range into a list sorted by `Start` ascending. -/
def insertRange (r : Range) : List Range → List Range
  | [] => [r]
  | x :: xs => if r.Start ≤ x.Start then r :: x :: xs else x :: insertRange r xs

/-- Sort ranges by `Start` ascending (insertion sort). -/
def sortRanges : List Range → List Range
  | [] => []
  | x :: xs => insertRange x (sortRanges xs)

/-- Merge the accumulated range `a` into the remaining `Start`-sorted
list: touching or overlapping ranges are coalesced. -/
def mergeInto (a : Range) : List Range → List Range
  | [] => [a]
  | b :: rest =>
    if b.Start ≤ a.End + 1 then
      mergeInto { Start := a.Start, End := max a.End b.End } rest
    else
      a :: mergeInto b rest

/-- Merge adjacent or overlapping ranges of a `Start`-sorted list:
touching ranges are coalesced. -/
def mergeRanges : List Range → List Range
  | [] => []
  | a :: rest => mergeInto a rest

/-- Modelled from the spec: normalization of a range set is sort by start
then merge adjacent or overlapping ranges; it is applied to the output of
the delta computation. -/
def normalizeRanges (l : List Range) : List Range :=
  mergeRanges (sortRanges l)

/-- Subtract the stored span `s` from the wanted range `r`, yielding the
zero, one or two remaining sub-ranges of `r`. -/
def Range.subtractOne (s r : Range) : List Range :=
  if s.End < r.Start ∨ r.End < s.Start then [r]
  else
    (if r.Start < s.Start then [{ Start := r.Start, End := s.Start - 1 }] else []) ++
    (if s.End < r.End then [{ Start := s.End + 1, End := r.End }] else [])

/-- Subtract every stored range from a single wanted range. -/
def subtractAll (stored : List Range) (r : Range) : List Range :=
  stored.foldl (fun acc s => acc.flatMap (Range.subtractOne s)) [r]

/-- Modelled from the spec: `Ranges.CalculateDelta(stored, contentLength)`
from `pkg/proxy/ranges/byterange`, absent from the snapshot.  Given what
the caller wants and what the store already has, returns the minimal
normalized set of sub-ranges needed to complete the request: suffix
ranges are resolved against `contentLength` first, wanted ranges are
clamped to the content length, covered spans are subtracted left to
right, and the outputs are re-normalized. -/
def CalculateDelta (want stored : Ranges) (cl : Int) : Ranges :=
  let w := (want.map (fun r => (r.resolve cl).clamp cl)).filter (fun r => r.Start ≤ r.End)
  normalizeRanges (w.flatMap (subtractAll stored))

/-! ## Lookup statuses, errors, caching policy, headers, documents -/

/-- Modelled from the spec: the closed `status.LookupStatus` enumeration
from `pkg/cache/status`, absent from the snapshot. -/
inductive LookupStatus where
  | Hit
  | PartialHit
  | RangeMiss
  | KeyMiss
  | Revalidated
  | Proxied
  | Error
deriving DecidableEq, Repr

/-- A Go `error` value, identified by its message. -/
structure GoErr where
  msg : String
deriving DecidableEq, Repr

/-- Modelled from the spec: `CachingPolicy` carries a `NoTransform` flag
plus per-response validator bookkeeping (client-side conditional request
state) that is reset before caching. -/
structure CachingPolicy where
  NoTransform : Bool := false
  clientConditionals : List (String × String) := []
deriving DecidableEq, Repr

/-- Modelled from the spec: `CachingPolicy.ResetClientConditionals` clears
the client-side conditional request state. -/
def CachingPolicy.ResetClientConditionals (cp : CachingPolicy) : CachingPolicy :=
  { cp with clientConditionals := [] }

/-- An `http.Header`: a multimap from field names to value lists.  Keys
are matched case-insensitively, modelling net/http's canonical-key
discipline. -/
abbrev Headers := List (String × List String)

/-- Lower-case a string (char-wise, as Go's `strings.ToLower` on ASCII
header and media-type names). -/
def lowerString (s : String) : String := String.mk (s.data.map Char.toLower)

/-- ASCII whitespace, for trimming. -/
def isSpaceChar (c : Char) : Bool := c = ' ' ∨ c = '\t' ∨ c = '\n' ∨ c = '\r'

/-- Trim leading and trailing whitespace. -/
def trimString (s : String) : String :=
  String.mk (((s.data.dropWhile isSpaceChar).reverse.dropWhile isSpaceChar).reverse)

/-- Split a character list on `/`, as Go's `strings.Split(s, "/")`; `acc`
holds the current segment reversed. -/
def splitSeg (acc : List Char) : List Char → List String
  | [] => [String.mk acc.reverse]
  | c :: rest =>
    if c = '/' then String.mk acc.reverse :: splitSeg [] rest
    else splitSeg (c :: acc) rest

/-- Canonical form of a header key (case-insensitive matching). -/
def hKey (s : String) : String := lowerString s

/-- `http.Header.Del`: remove every entry for the named header. -/
def hDel (h : Headers) (name : String) : Headers :=
  h.filter (fun e => !(hKey e.1 == hKey name))

/-- `http.Header.Get`: the first value of the named header, or `""`. -/
def hGet (h : Headers) (name : String) : String :=
  match h.find? (fun e => hKey e.1 == hKey name) with
  | some (_, v :: _) => v
  | _ => ""

/-- Whether the named header is present at all. -/
def hHas (h : Headers) (name : String) : Bool :=
  (h.find? (fun e => hKey e.1 == hKey name)).isSome

/-- Modelled from the spec: header-name constants from
`pkg/proxy/headers`, absent from the snapshot. -/
def NameDate : String := "Date"

/-- Modelled from the spec: the `Transfer-Encoding` header name. -/
def NameTransferEncoding : String := "Transfer-Encoding"

/-- Modelled from the spec: the `Content-Range` header name. -/
def NameContentRange : String := "Content-Range"

/-- Modelled from the spec: the result-marker (trickster result) header
name. -/
def NameTricksterResult : String := "X-Trickster-Result"

/-- Modelled from the spec: the `Content-Encoding` header name. -/
def NameContentEncoding : String := "Content-Encoding"

/-- Modelled from the spec: a `RangePart` pairs a byte range with its
content. -/
structure RangePart where
  PRange : Range
  Content : List Nat
deriving DecidableEq, Repr

/-- Modelled from the spec: the `HTTPDocument` cacheable artifact from
`pkg/proxy/engines`, whose struct definition is absent from the snapshot.
Field names and zero values follow the spec's data model; the three
transient flags are never serialized. -/
structure HTTPDocument where
  StatusCode : Int := 0
  Status : String := ""
  Headers : Headers := []
  Body : List Nat := []
  ContentType : String := ""
  ContentLength : Int := 0
  Ranges : Ranges := []
  RangeParts : List RangePart := []
  CachingPolicy : Option CachingPolicy := none
  isFulfillment : Bool := false
  isLoaded : Bool := false
  rangePartsLoaded : Bool := false
deriving DecidableEq, Repr

/-- The zero document `&HTTPDocument{}` allocated at the top of
`QueryCache`. -/
def emptyDoc : HTTPDocument := {}

/-! ## The QueryCache read pipeline -/

/-- A value held by a memory (reference) store: either a live
`*HTTPDocument` or a value of some other dynamic type. -/
inductive CacheObject where
  | doc (d : HTTPDocument)
  | other
deriving DecidableEq, Repr

/-- Outcome of a `QueryCache` call: the Go quadruple
`(doc, status, missing, err)`, or a runtime panic (nil-pointer
dereference). -/
inductive QCResult where
  | ok (d : HTTPDocument) (ls : LookupStatus) (missing : Ranges) (err : Option GoErr)
  | panic
deriving DecidableEq, Repr

/-- The shared tail of `QueryCache` (cache.go lines 121-146): apply the
fulfillment rewrite, then compute and classify the delta against the
stored ranges. -/
def QueryCacheTail (d : HTTPDocument) (ranges : Ranges) (ls : LookupStatus) : QCResult :=
  let isF : Bool := !d.Ranges.isEmpty && ranges.isEmpty
  let d1 : HTTPDocument := { d with isFulfillment := isF }
  let ranges1 : Ranges :=
    if isF then [{ Start := 0, End := d1.ContentLength - 1 }] else ranges
  if !ranges1.isEmpty && !d1.Ranges.isEmpty then
    let delta := CalculateDelta ranges1 d1.Ranges d1.ContentLength
    if !delta.isEmpty then
      if delta = ranges1 then .ok d1 .RangeMiss delta none
      else .ok d1 .PartialHit delta none
    else .ok d1 ls delta none
  else .ok d1 ls [] none

/-- `QueryCache` for a memory (reference) store (cache.go lines 56-77):
the inputs are the triple returned by `RetrieveReference` and the wanted
ranges.  A non-nil referenced object of the wrong dynamic type leaves the
document pointer nil (`d, _ = ifc.(*HTTPDocument)`), so the subsequent
field access panics. -/
def QueryCacheMemory (ifc : Option CacheObject) (ls : LookupStatus)
    (err : Option GoErr) (ranges : Ranges) : QCResult :=
  if err ≠ none ∨ ls ≠ .Hit then
    .ok emptyDoc ls (if ls = .KeyMiss ∧ ranges ≠ [] then ranges else []) err
  else
    match ifc with
    | none => .ok emptyDoc .KeyMiss ranges err
    | some (.doc d) => QueryCacheTail d ranges ls
    | some .other => .panic

/-- `QueryCache` for a byte store (cache.go lines 79-119): the inputs are
the triple returned by `Retrieve`, the external snappy decoder and msgp
deserializer, and the wanted ranges.  The leading compression byte is
peeled; a decode failure leaves the raw payload in place (the shadowed
`err` is discarded); deserialization failure returns `KeyMiss` with the
deserialization error and the original wanted ranges. -/
def QueryCacheBytes (snappyDecode : List Nat → Except GoErr (List Nat))
    (unmarshal : List Nat → HTTPDocument × Option GoErr)
    (bytes : List Nat) (ls : LookupStatus) (err : Option GoErr)
    (ranges : Ranges) : QCResult :=
  if err ≠ none ∨ ls ≠ .Hit then
    .ok emptyDoc ls (if ls = .KeyMiss ∧ ranges ≠ [] then ranges else []) err
  else
    let inflate : Bool := bytes.head? == some 1
    let bytes1 := bytes.tail
    let bytes2 :=
      if inflate then
        match snappyDecode bytes1 with
        | .ok b => b
        | .error _ => bytes1
      else bytes1
    match unmarshal bytes2 with
    | (d, some e) => .ok d .KeyMiss ranges (some e)
    | (d, none) => QueryCacheTail d ranges ls

/-- `QueryCache` (cache.go lines 41-147): dispatch on the store's
provider classification. -/
def QueryCache (isMemory : Bool)
    (memLookup : Option CacheObject × LookupStatus × Option GoErr)
    (byteLookup : List Nat × LookupStatus × Option GoErr)
    (snappyDecode : List Nat → Except GoErr (List Nat))
    (unmarshal : List Nat → HTTPDocument × Option GoErr)
    (ranges : Ranges) : QCResult :=
  if isMemory then
    QueryCacheMemory memLookup.1 memLookup.2.1 memLookup.2.2 ranges
  else
    QueryCacheBytes snappyDecode unmarshal byteLookup.1 byteLookup.2.1 byteLookup.2.2 ranges

/-! ## The WriteCache write pipeline -/

/-- Modelled from the spec: the media-type parsing performed by Go's
`mime.ParseMediaType` as the pipeline consumes it — the media type is the
(lower-cased, trimmed) portion of the header value before the first `;`,
so parameters such as `charset` or `boundary` are ignored; an empty media
type is a parse failure. -/
def parseMediaType (v : String) : Option String :=
  let mt := trimString (lowerString (String.mk (v.data.takeWhile (fun c => c ≠ ';'))))
  if mt = "" then none else some mt

/-- `d.CachingPolicy != nil && d.CachingPolicy.NoTransform` for an
optional caching policy. -/
def noTransformOf : Option CachingPolicy → Bool
  | none => false
  | some p => p.NoTransform

/-- The compression decision of `WriteCache` (cache.go lines 180-187):
compress only when the content encoding is empty or `identity`, the
caching policy is absent or has `NoTransform` false, and the parsed media
type of the document's content type is among the compressible types. -/
def compressDecision (ce : String) (cp : Option CachingPolicy) (ct : String)
    (compressTypes : List String) : Bool :=
  if (ce = "" || ce = "identity") && !(noTransformOf cp) then
    match parseMediaType ct with
    | some mt => compressTypes.contains mt
    | none => false
  else false

/-- The header scrub of `WriteCache` (cache.go lines 167-174): delete
`Date`, `Transfer-Encoding`, `Content-Range`, and the result-marker
header. -/
def scrubHeaders (h : Headers) : Headers :=
  hDel (hDel (hDel (hDel h NameDate) NameTransferEncoding) NameContentRange) NameTricksterResult

/-- What `WriteCache` hands to the store: either the live document (via
`StoreReference`) or the document it serialized together with the byte
payload written (via `Store`). -/
inductive StoreAction where
  | reference (d : HTTPDocument)
  | store (marshaled : HTTPDocument) (payload : List Nat)
deriving DecidableEq, Repr

/-- The document a store action persists. -/
def StoreAction.storedDoc : StoreAction → HTTPDocument
  | .reference d => d
  | .store d _ => d

/-- `WriteCache` (cache.go lines 157-246).  External collaborators are
parameters: `marshal` is msgp's `MarshalMsg` (returning the produced
bytes and a possible error), `snappyEncode` is `snappy.Encode`, and the
two result parameters are what `StoreReference` / `Store` return for the
written entry.  The returned pair is the store action performed and the
error `WriteCache` returns to its caller. -/
def WriteCache (isMemory : Bool)
    (marshal : HTTPDocument → List Nat × Option GoErr)
    (snappyEncode : List Nat → List Nat)
    (storeReferenceResult : Option GoErr)
    (storeResult : Option GoErr)
    (d : HTTPDocument) (compressTypes : List String) : StoreAction × Option GoErr :=
  let h := scrubHeaders d.Headers
  let ce := hGet h NameContentEncoding
  let d1 : HTTPDocument := { d with Headers := h }
  let compress := compressDecision ce d1.CachingPolicy d1.ContentType compressTypes
  if isMemory then
    let d2 : HTTPDocument :=
      { d1 with rangePartsLoaded := false, isFulfillment := false, isLoaded := false,
                RangeParts := [],
                CachingPolicy := d1.CachingPolicy.map CachingPolicy.ResetClientConditionals }
    (.reference d2, storeReferenceResult)
  else
    let mres := marshal d1
    let payload := if compress then 1 :: snappyEncode mres.1 else 0 :: mres.1
    (.store d1 payload, storeResult)

/-! ## deepSearch over a JSON document -/

/-- A JSON value, as produced by `json.Unmarshal` into
`map[string]interface{}`. -/
inductive JSONValue where
  | str (s : String)
  | num (n : Int)
  | jbool (b : Bool)
  | obj (fields : List (String × JSONValue))
  | arr (elems : List JSONValue)
  | null

/-- Key lookup in a JSON object. -/
def lookupKey (fields : List (String × JSONValue)) (k : String) : Option JSONValue :=
  (fields.find? (fun p => p.1 == k)).map (fun p => p.2)

/-- Render a scalar JSON leaf (string, number, boolean) as the string
`deepSearch` returns; objects, arrays and null are not scalar leaves. -/
def renderScalar : JSONValue → Option String
  | .str s => some s
  | .num n => some (toString n)
  | .jbool b => some (if b then "true" else "false")
  | _ => none

/-- Whether a JSON value is an object. -/
def jsonIsObj : JSONValue → Bool
  | .obj _ => true
  | _ => false

/-- Modelled from the spec: the segment walk of `deepSearch` (the function
itself is absent from the snapshot; only its tests are present).  Each
non-final segment must name an object to descend into; the final segment
must name a scalar leaf; anything else is a not-found error. -/
def deepSearchSegs (fields : List (String × JSONValue)) : List String → Except String String
  | [] => .error "could not find key"
  | [p] =>
    match lookupKey fields p with
    | none => .error ("could not find key: " ++ p)
    | some v =>
      match renderScalar v with
      | some s => .ok s
      | none => .error ("could not find key: " ++ p)
  | p :: rest =>
    match lookupKey fields p with
    | none => .error ("could not find key: " ++ p)
    | some (.obj sub) => deepSearchSegs sub rest
    | some _ => .error ("could not find key: " ++ p)

/-- Modelled from the spec: `deepSearch` navigates a JSON object by
slash-separated segments; an empty path is an error. -/
def deepSearch (document : List (String × JSONValue)) (searchPath : String) :
    Except String String :=
  if searchPath = "" then .error ("invalid search path: " ++ searchPath)
  else deepSearchSegs document (splitSeg [] searchPath.data)

/-- Whether a `deepSearch` outcome is an error. -/
def searchFailed : Except String String → Bool
  | .error _ => true
  | .ok _ => false

/-- The S5 JSON test document (`testJSONDocument` in key_test.go). -/
def testJSONDocument : List (String × JSONValue) :=
  [("requestType", .str "query"),
   ("query", .obj
     [("table", .str "movies"),
      ("fields", .str "eidr,title"),
      ("filter", .str "year=1979"),
      ("options", .obj
        [("batchSize", .num 20),
         ("someArray", .arr [.str "test"]),
         ("booleanHere", .jbool true)])]),
   ("field1", .str "value1")]

/-- The payload `QueryCache` actually hands to deserialization on a byte
store: the leading compression byte is removed, and if it was `1` the
snappy decode result is used when decoding succeeds, the raw remainder
when it fails. -/
def effectivePayload (snappyDecode : List Nat → Except GoErr (List Nat))
    (bytes : List Nat) : List Nat :=
  if bytes.head? == some 1 then
    match snappyDecode bytes.tail with
    | .ok b => b
    | .error _ => bytes.tail
  else bytes.tail

/-- The lookup status carried by a `QueryCache` outcome (none for a
panic). -/
def QCResult.statusOf : QCResult → Option LookupStatus
  | .ok _ ls _ _ => some ls
  | .panic => none

/-! ## Helper lemmas -/

/-- Characterization of the `QueryCache` tail when the stored document has
ranges: the wanted ranges are rewritten by the fulfillment rule and the
delta is computed and classified. -/
lemma queryCacheTail_eq_of_stored_ranges (D : HTTPDocument) (want : Ranges)
    (ls : LookupStatus) (hd : D.Ranges ≠ []) :
    QueryCacheTail D want ls =
      (let w := if want = [] then [{ Start := 0, End := D.ContentLength - 1 }] else want
       let delta := CalculateDelta w D.Ranges D.ContentLength
       QCResult.ok { D with isFulfillment := want.isEmpty }
         (if delta = [] then ls else if delta = w then .RangeMiss else .PartialHit)
         delta none) := by
  have h1 : D.Ranges.isEmpty = false := by
    cases hR : D.Ranges with
    | nil => exact absurd hR hd
    | cons a l => rfl
  unfold QueryCacheTail
  cases hW : want with
  | nil =>
    simp [h1]
    split
    · simp_all [List.isEmpty_iff]
    · split <;> simp_all [List.isEmpty_iff]
  | cons a l =>
    simp [h1]
    split
    · rfl
    · split <;> rfl

/-- The `QueryCache` tail never reports a key miss: its status is the
store's `Hit` or a range classification. -/
lemma queryCacheTail_status_ne_keymiss (d : HTTPDocument) (want : Ranges) :
    (QueryCacheTail d want .Hit).statusOf ≠ some .KeyMiss := by
  by_cases hR : d.Ranges = []
  · unfold QueryCacheTail
    simp [hR, QCResult.statusOf]
  · rw [queryCacheTail_eq_of_stored_ranges d want .Hit hR]
    simp only [QCResult.statusOf]
    repeat' split
    all_goals simp

/-- A memory-store lookup that hits with a live document proceeds to the
shared classification tail. -/
lemma queryCacheMemory_hit_doc (D : HTTPDocument) (want : Ranges) :
    QueryCacheMemory (some (.doc D)) .Hit none want = QueryCacheTail D want .Hit := by
  unfold QueryCacheMemory
  simp

/-- A byte-store lookup that hits deserializes the effective payload (the
post-compression-byte bytes, decompressed when possible) and proceeds to
the shared classification tail. -/
lemma queryCacheBytes_hit_eq (snappyDecode : List Nat → Except GoErr (List Nat))
    (unmarshal : List Nat → HTTPDocument × Option GoErr)
    (bytes : List Nat) (want : Ranges) :
    QueryCacheBytes snappyDecode unmarshal bytes .Hit none want =
      (match unmarshal (effectivePayload snappyDecode bytes) with
       | (d, some e) => QCResult.ok d .KeyMiss want (some e)
       | (d, none) => QueryCacheTail d want .Hit) := by
  unfold QueryCacheBytes effectivePayload
  simp

/-! ## Claim theorems -/

/-- **C1**: when the store lookup yields a document with non-empty stored
ranges and the caller passed empty or nil wanted ranges — on a memory
store via a hit reference, on a byte store via a deserialized payload —
the pipeline sets `isFulfillment` and rewrites the wanted ranges to the
single full-object range `{0, ContentLength-1}` before delta computation,
so the returned missing ranges equal that full-object range minus the
stored ranges (`CalculateDelta`). -/
theorem queryCache_fulfillment (D : HTTPDocument) (hr : D.Ranges ≠ []) :
    QueryCacheMemory (some (.doc D)) .Hit none [] =
      .ok { D with isFulfillment := true }
        (if CalculateDelta [{ Start := 0, End := D.ContentLength - 1 }] D.Ranges
              D.ContentLength = [] then .Hit
         else if CalculateDelta [{ Start := 0, End := D.ContentLength - 1 }] D.Ranges
              D.ContentLength = [{ Start := 0, End := D.ContentLength - 1 }] then .RangeMiss
         else .PartialHit)
        (CalculateDelta [{ Start := 0, End := D.ContentLength - 1 }] D.Ranges D.ContentLength)
        none
    ∧ ∀ (snappyDecode : List Nat → Except GoErr (List Nat))
        (unmarshal : List Nat → HTTPDocument × Option GoErr) (bytes : List Nat),
        unmarshal (effectivePayload snappyDecode bytes) = (D, none) →
        QueryCacheBytes snappyDecode unmarshal bytes .Hit none [] =
          .ok { D with isFulfillment := true }
            (if CalculateDelta [{ Start := 0, End := D.ContentLength - 1 }] D.Ranges
                  D.ContentLength = [] then .Hit
             else if CalculateDelta [{ Start := 0, End := D.ContentLength - 1 }] D.Ranges
                  D.ContentLength = [{ Start := 0, End := D.ContentLength - 1 }] then .RangeMiss
             else .PartialHit)
            (CalculateDelta [{ Start := 0, End := D.ContentLength - 1 }] D.Ranges D.ContentLength)
            none := by
  have htail : QueryCacheTail D [] .Hit =
      .ok { D with isFulfillment := true }
        (if CalculateDelta [{ Start := 0, End := D.ContentLength - 1 }] D.Ranges
              D.ContentLength = [] then .Hit
         else if CalculateDelta [{ Start := 0, End := D.ContentLength - 1 }] D.Ranges
              D.ContentLength = [{ Start := 0, End := D.ContentLength - 1 }] then .RangeMiss
         else .PartialHit)
        (CalculateDelta [{ Start := 0, End := D.ContentLength - 1 }] D.Ranges D.ContentLength)
        none := by
    have h := queryCacheTail_eq_of_stored_ranges D [] .Hit hr
    simpa using h
  refine ⟨?_, fun snappyDecode unmarshal bytes hu => ?_⟩
  · rw [queryCacheMemory_hit_doc]
    exact htail
  · rw [queryCacheBytes_hit_eq, hu]
    exact htail

/-- Witness for **C1**: a document holding bytes 0-4 of a 10-byte object,
queried with no wanted ranges against a memory store, comes back flagged
as fulfillment with missing ranges `{5,9}`. -/
theorem queryCache_fulfillment_witness :
    ({ emptyDoc with Ranges := [{ Start := 0, End := 4 }], ContentLength := 10 } : HTTPDocument).Ranges ≠ [] ∧
    QueryCacheMemory
        (some (.doc { emptyDoc with Ranges := [{ Start := 0, End := 4 }], ContentLength := 10 }))
        .Hit none [] =
      .ok { emptyDoc with Ranges := [{ Start := 0, End := 4 }], ContentLength := 10, isFulfillment := true }
        .PartialHit [{ Start := 5, End := 9 }] none :=
  ⟨by decide, by
    rw [(queryCache_fulfillment
      { emptyDoc with Ranges := [{ Start := 0, End := 4 }], ContentLength := 10 } (by decide)).1]
    decide⟩

/-- **C2**: when both the (possibly fulfillment-rewritten) wanted ranges
`w` and the stored ranges are non-empty, the status is determined by
`delta = w.CalculateDelta(stored, contentLength)`: `delta` empty is a
`Hit`, `delta` equal to `w` is a `RangeMiss`, otherwise a `PartialHit`;
the call returns the document, the status, `delta`, and a nil error. -/
theorem queryCache_delta_classification (D : HTTPDocument) (want w : Ranges)
    (hd : D.Ranges ≠ [])
    (hw : w = if want = [] then [{ Start := 0, End := D.ContentLength - 1 }] else want)
    (hne : w ≠ []) :
    QueryCacheMemory (some (.doc D)) .Hit none want =
      .ok { D with isFulfillment := want.isEmpty }
        (if CalculateDelta w D.Ranges D.ContentLength = [] then .Hit
         else if CalculateDelta w D.Ranges D.ContentLength = w then .RangeMiss
         else .PartialHit)
        (CalculateDelta w D.Ranges D.ContentLength) none
    ∧ ∀ (snappyDecode : List Nat → Except GoErr (List Nat))
        (unmarshal : List Nat → HTTPDocument × Option GoErr) (bytes : List Nat),
        unmarshal (effectivePayload snappyDecode bytes) = (D, none) →
        QueryCacheBytes snappyDecode unmarshal bytes .Hit none want =
          .ok { D with isFulfillment := want.isEmpty }
            (if CalculateDelta w D.Ranges D.ContentLength = [] then .Hit
             else if CalculateDelta w D.Ranges D.ContentLength = w then .RangeMiss
             else .PartialHit)
            (CalculateDelta w D.Ranges D.ContentLength) none := by
  have htail : QueryCacheTail D want .Hit =
      .ok { D with isFulfillment := want.isEmpty }
        (if CalculateDelta w D.Ranges D.ContentLength = [] then .Hit
         else if CalculateDelta w D.Ranges D.ContentLength = w then .RangeMiss
         else .PartialHit)
        (CalculateDelta w D.Ranges D.ContentLength) none := by
    have h := queryCacheTail_eq_of_stored_ranges D want .Hit hd
    subst hw
    simpa using h
  refine ⟨?_, fun snappyDecode unmarshal bytes hu => ?_⟩
  · rw [queryCacheMemory_hit_doc]
    exact htail
  · rw [queryCacheBytes_hit_eq, hu]
    exact htail

/-- Witness for **C2**: wanting bytes 0-9 of a document storing bytes
5-9 yields a partial hit with missing ranges `{0,4}`. -/
theorem queryCache_delta_classification_witness :
    ({ emptyDoc with Ranges := [{ Start := 5, End := 9 }], ContentLength := 10 } : HTTPDocument).Ranges ≠ [] ∧
    QueryCacheMemory
        (some (.doc { emptyDoc with Ranges := [{ Start := 5, End := 9 }], ContentLength := 10 }))
        .Hit none [{ Start := 0, End := 9 }] =
      .ok { emptyDoc with Ranges := [{ Start := 5, End := 9 }], ContentLength := 10, isFulfillment := false }
        .PartialHit [{ Start := 0, End := 4 }] none :=
  ⟨by decide, by
    rw [(queryCache_delta_classification
      { emptyDoc with Ranges := [{ Start := 5, End := 9 }], ContentLength := 10 }
      [{ Start := 0, End := 9 }] [{ Start := 0, End := 9 }] (by decide) (by decide) (by decide)).1]
    decide⟩

/-- **C3** (amended): for a memory (reference) store, if the reference
lookup is not a `Hit` or the referenced object is nil, `QueryCache`
returns the empty document with the propagated status (`KeyMiss` for the
nil object), the missing ranges being the wanted ranges exactly in the
`KeyMiss`-with-wanted-ranges cases; a non-nil referenced object that is
not an `*HTTPDocument`, however, is not handled: the nil document pointer
is dereferenced and the call panics. -/
theorem queryCacheMemory_guard (ifc : Option CacheObject) (ls : LookupStatus)
    (err : Option GoErr) (want : Ranges) :
    ((err ≠ none ∨ ls ≠ .Hit) →
        QueryCacheMemory ifc ls err want =
          .ok emptyDoc ls (if ls = .KeyMiss ∧ want ≠ [] then want else []) err)
    ∧ QueryCacheMemory none .Hit none want = .ok emptyDoc .KeyMiss want none
    ∧ QueryCacheMemory (some .other) .Hit none want = .panic := by
  refine ⟨fun h => ?_, ?_, ?_⟩
  · unfold QueryCacheMemory
    rw [if_pos h]
  · unfold QueryCacheMemory
    simp
  · unfold QueryCacheMemory
    simp

/-- Witness for **C3**: a `KeyMiss` lookup with wanted ranges `{0,4}`
propagates the status and echoes the wanted ranges. -/
theorem queryCacheMemory_guard_witness :
    ((none : Option GoErr) ≠ none ∨ LookupStatus.KeyMiss ≠ .Hit) ∧
    QueryCacheMemory none .KeyMiss none [{ Start := 0, End := 4 }] =
      .ok emptyDoc .KeyMiss [{ Start := 0, End := 4 }] none :=
  ⟨Or.inr (by decide), by
    rw [(queryCacheMemory_guard none .KeyMiss none [{ Start := 0, End := 4 }]).1
      (Or.inr (by decide))]
    decide⟩

/-- Counterexample for **C3** as stated: a non-nil referenced object of
the wrong dynamic type does not produce an empty document with `KeyMiss`;
the call panics on the nil document pointer. -/
theorem queryCacheMemory_wrong_type_counterexample :
    QueryCacheMemory (some .other) .Hit none [] = QCResult.panic ∧
    QueryCacheMemory (some .other) .Hit none [] ≠
      QCResult.ok emptyDoc .KeyMiss [] none := by
  decide

/-- **C4** (amended): on a byte store that returns `Hit`, the single
leading compression byte is removed before deserialization, and when that
byte is `1` the remaining payload is snappy-decompressed; a decompression
failure is silently ignored — the raw post-byte payload is deserialized
as-is — so `KeyMiss` with an error arises only from deserialization
failure, and the recorded error is the deserialization error. -/
theorem queryCacheBytes_payload (snappyDecode : List Nat → Except GoErr (List Nat))
    (unmarshal : List Nat → HTTPDocument × Option GoErr)
    (bytes : List Nat) (want : Ranges) :
    QueryCacheBytes snappyDecode unmarshal bytes .Hit none want =
      (match unmarshal (effectivePayload snappyDecode bytes) with
       | (d, some e) => QCResult.ok d .KeyMiss want (some e)
       | (d, none) => QueryCacheTail d want .Hit) :=
  queryCacheBytes_hit_eq snappyDecode unmarshal bytes want

/-- Counterexample for **C4** as stated: with a payload whose compression
byte is `1` but whose body the snappy decoder rejects, and a
deserializer that succeeds on the raw body, `QueryCache` returns status
`Hit` with a nil error — the lookup is not downgraded to `KeyMiss` and
the decompression error is not recorded. -/
theorem queryCacheBytes_decompress_counterexample :
    QueryCacheBytes (fun _ => .error { msg := "snappy: corrupt input" })
        (fun _ => (emptyDoc, none)) [1, 99] .Hit none [] =
      .ok emptyDoc .Hit [] none ∧
    LookupStatus.Hit ≠ LookupStatus.KeyMiss := by
  decide

/-- **C5**: when snappy decompression of a byte-store payload fails, the
failure is downgraded silently: the raw post-compression-byte payload is
deserialized as-is; `KeyMiss` is returned only if deserialization also
fails, and then with the deserialization error and the original wanted
ranges. -/
theorem queryCacheBytes_silent_decompress
    (snappyDecode : List Nat → Except GoErr (List Nat))
    (unmarshal : List Nat → HTTPDocument × Option GoErr)
    (bytes : List Nat) (want : Ranges) (e : GoErr)
    (h1 : bytes.head? = some 1)
    (h2 : snappyDecode bytes.tail = .error e) :
    QueryCacheBytes snappyDecode unmarshal bytes .Hit none want =
      (match unmarshal bytes.tail with
       | (d, some e2) => QCResult.ok d .KeyMiss want (some e2)
       | (d, none) => QueryCacheTail d want .Hit)
    ∧ ((unmarshal bytes.tail).2 = none →
        (QueryCacheBytes snappyDecode unmarshal bytes .Hit none want).statusOf ≠
          some .KeyMiss) := by
  have hmain : QueryCacheBytes snappyDecode unmarshal bytes .Hit none want =
      (match unmarshal bytes.tail with
       | (d, some e2) => QCResult.ok d .KeyMiss want (some e2)
       | (d, none) => QueryCacheTail d want .Hit) := by
    unfold QueryCacheBytes
    simp [h1, h2]
  refine ⟨hmain, fun hu => ?_⟩
  rw [hmain]
  rcases hm : unmarshal bytes.tail with ⟨d, e2⟩
  rw [hm] at hu
  simp at hu
  subst hu
  simp only []
  exact queryCacheTail_status_ne_keymiss d want

/-- Witness for **C5**: compression byte `1`, a failing decoder, and a
failing deserializer produce `KeyMiss` with the deserialization error and
the original wanted ranges. -/
theorem queryCacheBytes_silent_decompress_witness :
    ([1, 7] : List Nat).head? = some 1 ∧
    (fun _ : List Nat => (Except.error { msg := "corrupt" } : Except GoErr (List Nat))) [7] =
      Except.error { msg := "corrupt" } ∧
    QueryCacheBytes (fun _ => .error { msg := "corrupt" })
        (fun _ => (emptyDoc, some { msg := "msgp: bad map" })) [1, 7] .Hit none
        [{ Start := 0, End := 3 }] =
      .ok emptyDoc .KeyMiss [{ Start := 0, End := 3 }] (some { msg := "msgp: bad map" }) :=
  ⟨by decide, rfl, by
    rw [(queryCacheBytes_silent_decompress (fun _ => .error { msg := "corrupt" })
      (fun _ => (emptyDoc, some { msg := "msgp: bad map" })) [1, 7]
      [{ Start := 0, End := 3 }] { msg := "corrupt" } (by decide) rfl).1]⟩

-- helper lemmas for header scrubbing
lemma find_hDel_self (h : Headers) (n : String) :
    (hDel h n).find? (fun e => hKey e.1 == hKey n) = none := by
  induction h with
  | nil => rfl
  | cons a t ih =>
    by_cases hk : hKey a.1 == hKey n
    · simp only [hDel, List.filter, hk, Bool.not_true]
      exact ih
    · simp only [hDel, List.filter] at ih ⊢
      simp [hk, List.find?, ih]

lemma hHas_hDel_self (h : Headers) (n : String) : hHas (hDel h n) n = false := by
  simp [hHas, find_hDel_self]

lemma hHas_hDel_of_not (h : Headers) (m n : String) (hn : hHas h n = false) :
    hHas (hDel h m) n = false := by
  induction h with
  | nil => rfl
  | cons a t ih =>
    simp only [hHas, List.find?] at hn
    by_cases hk : hKey a.1 == hKey n
    · simp [hk] at hn
    · simp only [hDel, List.filter]
      by_cases hm : hKey a.1 == hKey m
      · simp only [hm]
        simp only [Bool.not_true]
        exact ih (by simpa [hHas, List.find?, hk] using hn)
      · simp only [hm, Bool.not_false]
        simp only [hHas, List.find?, hk]
        have := ih (by simpa [hHas, List.find?, hk] using hn)
        simpa [hHas, hDel] using this

lemma scrubHeaders_no_date (h : Headers) : hHas (scrubHeaders h) NameDate = false := by
  unfold scrubHeaders
  apply hHas_hDel_of_not
  apply hHas_hDel_of_not
  apply hHas_hDel_of_not
  exact hHas_hDel_self h NameDate

lemma scrubHeaders_no_te (h : Headers) : hHas (scrubHeaders h) NameTransferEncoding = false := by
  unfold scrubHeaders
  apply hHas_hDel_of_not
  apply hHas_hDel_of_not
  exact hHas_hDel_self _ _

lemma scrubHeaders_no_cr (h : Headers) : hHas (scrubHeaders h) NameContentRange = false := by
  unfold scrubHeaders
  apply hHas_hDel_of_not
  exact hHas_hDel_self _ _

lemma scrubHeaders_no_marker (h : Headers) : hHas (scrubHeaders h) NameTricksterResult = false := by
  unfold scrubHeaders
  exact hHas_hDel_self _ _

lemma takeWhile_append_stop {α : Type} (p : α → Bool) (x : α) (hx : p x = false)
    (l1 l2 : List α) : (l1 ++ x :: l2).takeWhile p = l1.takeWhile p := by
  induction l1 with
  | nil => simp [List.takeWhile_cons, hx]
  | cons a t ih =>
    by_cases ha : p a
    · simp [List.takeWhile_cons, ha, ih]
    · simp only [Bool.not_eq_true] at ha
      simp [List.takeWhile_cons, ha]

lemma parseMediaType_ignores_params (base params : String) :
    parseMediaType (base ++ ";" ++ params) = parseMediaType base := by
  unfold parseMediaType
  have hd : (base ++ ";" ++ params).data = base.data ++ ';' :: params.data := by
    simp [String.data_append]
  rw [hd, takeWhile_append_stop _ ';' (by decide)]

/-- **C6**: compression is selected for a `WriteCache` call if and only if
the document's `Content-Encoding` is empty or `identity`, the caching
policy is absent or has `NoTransform` false, and the parsed media type of
the content type (parameters ignored) is a member of the compressible
types; on a byte store the selection shows as the leading compression
byte of the stored payload. -/
theorem writeCache_compression_selection :
    (∀ (m : HTTPDocument → List Nat × Option GoErr) (se : List Nat → List Nat)
        (srr sr : Option GoErr) (d : HTTPDocument) (cts : List String),
      (WriteCache false m se srr sr d cts).1 =
        .store { d with Headers := scrubHeaders d.Headers }
          (if compressDecision (hGet (scrubHeaders d.Headers) NameContentEncoding)
                d.CachingPolicy d.ContentType cts
           then 1 :: se (m { d with Headers := scrubHeaders d.Headers }).1
           else 0 :: (m { d with Headers := scrubHeaders d.Headers }).1))
    ∧ (∀ (ce : String) (cp : Option CachingPolicy) (ct : String) (cts : List String),
        compressDecision ce cp ct cts = true ↔
          ((ce = "" ∨ ce = "identity") ∧ (∀ p, cp = some p → p.NoTransform = false) ∧
            ∃ mt, parseMediaType ct = some mt ∧ mt ∈ cts))
    ∧ (∀ base params : String,
        parseMediaType (base ++ ";" ++ params) = parseMediaType base) := by
  refine ⟨fun m se srr sr d cts => ?_, fun ce cp ct cts => ?_, parseMediaType_ignores_params⟩
  · unfold WriteCache
    simp
  · unfold compressDecision noTransformOf
    cases cp with
    | none =>
      cases hp : parseMediaType ct with
      | none => simp [hp]
      | some mt => simp [hp]
    | some p =>
      cases hp : parseMediaType ct with
      | none => simp [hp]
      | some mt =>
        by_cases hnt : p.NoTransform
        · simp [hp, hnt]
        · simp [hp, hnt]

/-- Witness for **C6**: content type `text/json; charset=utf-8` with no
content encoding and no policy is compressed when `text/json` is
compressible. -/
theorem writeCache_compression_selection_witness :
    compressDecision "" none "text/json; charset=utf-8" ["text/json"] = true ∧
    parseMediaType "text/json;charset=utf-8" = parseMediaType "text/json" :=
  ⟨(writeCache_compression_selection.2.1 "" none "text/json; charset=utf-8"
      ["text/json"]).mpr ⟨Or.inl rfl, fun p hp => by simp at hp, "text/json", by decide, by decide⟩,
   writeCache_compression_selection.2.2 "text/json" "charset=utf-8"⟩

/-- **C7**: `WriteCache` deletes `Date`, `Transfer-Encoding`,
`Content-Range`, and the result-marker header from the document before
handing it to any store, for the reference path and the serialization
path alike, so none of these headers appears in a persisted document. -/
theorem writeCache_header_scrub (isMemory : Bool)
    (m : HTTPDocument → List Nat × Option GoErr) (se : List Nat → List Nat)
    (srr sr : Option GoErr) (d : HTTPDocument) (cts : List String) :
    hHas ((WriteCache isMemory m se srr sr d cts).1.storedDoc).Headers NameDate = false ∧
    hHas ((WriteCache isMemory m se srr sr d cts).1.storedDoc).Headers NameTransferEncoding = false ∧
    hHas ((WriteCache isMemory m se srr sr d cts).1.storedDoc).Headers NameContentRange = false ∧
    hHas ((WriteCache isMemory m se srr sr d cts).1.storedDoc).Headers NameTricksterResult = false := by
  cases isMemory with
  | false =>
    unfold WriteCache
    simp [StoreAction.storedDoc, scrubHeaders_no_date, scrubHeaders_no_te,
      scrubHeaders_no_cr, scrubHeaders_no_marker]
  | true =>
    unfold WriteCache
    simp [StoreAction.storedDoc, scrubHeaders_no_date, scrubHeaders_no_te,
      scrubHeaders_no_cr, scrubHeaders_no_marker]

/-- **C8**: on the memory (reference) path, `WriteCache` hands
`StoreReference` the live document with `rangePartsLoaded`,
`isFulfillment` and `isLoaded` set false, `RangeParts` nulled, and the
caching policy's client-conditional state reset; no serialization is
performed (the outcome is independent of the marshaller), so the flags of
the stored reference are always false for the next reader. -/
theorem writeCache_reference_reset
    (m : HTTPDocument → List Nat × Option GoErr) (se : List Nat → List Nat)
    (srr sr : Option GoErr) (d : HTTPDocument) (cts : List String) :
    WriteCache true m se srr sr d cts =
      (.reference { d with Headers := scrubHeaders d.Headers,
                           rangePartsLoaded := false, isFulfillment := false,
                           isLoaded := false, RangeParts := [],
                           CachingPolicy :=
                             d.CachingPolicy.map CachingPolicy.ResetClientConditionals },
       srr) ∧
    ((WriteCache true m se srr sr d cts).1.storedDoc.rangePartsLoaded = false ∧
     (WriteCache true m se srr sr d cts).1.storedDoc.isFulfillment = false ∧
     (WriteCache true m se srr sr d cts).1.storedDoc.isLoaded = false ∧
     (WriteCache true m se srr sr d cts).1.storedDoc.RangeParts = []) ∧
    (∀ p, d.CachingPolicy = some p →
      (WriteCache true m se srr sr d cts).1.storedDoc.CachingPolicy =
        some p.ResetClientConditionals) := by
  refine ⟨?_, ?_, ?_⟩
  · unfold WriteCache
    simp
  · unfold WriteCache
    simp [StoreAction.storedDoc]
  · intro p hp
    unfold WriteCache
    simp [StoreAction.storedDoc, hp]

/-- **C10**: on the byte-store path a serialization failure is not
surfaced: the result of `WriteCache` is the compression byte prepended to
whatever bytes marshaling produced, stored via `Store`, and the caller
sees only `Store`'s result — in particular `WriteCache` returns nil even
when marshaling failed. -/
theorem writeCache_marshal_error_ignored :
    (∀ (m : HTTPDocument → List Nat × Option GoErr) (se : List Nat → List Nat)
        (srr sr : Option GoErr) (d : HTTPDocument) (cts : List String),
      WriteCache false m se srr sr d cts =
        (.store { d with Headers := scrubHeaders d.Headers }
           (if compressDecision (hGet (scrubHeaders d.Headers) NameContentEncoding)
                 d.CachingPolicy d.ContentType cts
            then 1 :: se (m { d with Headers := scrubHeaders d.Headers }).1
            else 0 :: (m { d with Headers := scrubHeaders d.Headers }).1),
         sr))
    ∧ (WriteCache false (fun _ => ([], some { msg := "msgp: marshal failure" }))
        id none none emptyDoc []).2 = none := by
  constructor
  · intro m se srr sr d cts
    unfold WriteCache
    simp
  · rfl

/-- **C9**: `deepSearch` navigates slash-separated segments of a JSON
object; an empty path, an absent key, a traversal into a non-object, and
a resolution at a non-scalar (array or object) are not-found errors,
while scalar leaves resolve; the S5 test document scenarios behave as the
tests demand. -/
theorem deepSearch_scenarios :
    (∀ d : List (String × JSONValue), searchFailed (deepSearch d "") = true)
    ∧ (∀ (d : List (String × JSONValue)) (segs : List String) (k : String),
        lookupKey d k = none → searchFailed (deepSearchSegs d (k :: segs)) = true)
    ∧ (∀ (d : List (String × JSONValue)) (k : String) (segs : List String) (v : JSONValue),
        segs ≠ [] → lookupKey d k = some v → jsonIsObj v = false →
        searchFailed (deepSearchSegs d (k :: segs)) = true)
    ∧ (∀ (d : List (String × JSONValue)) (k : String) (v : JSONValue),
        lookupKey d k = some v → renderScalar v = none →
        searchFailed (deepSearchSegs d [k]) = true)
    ∧ deepSearch testJSONDocument "query/table" = .ok "movies"
    ∧ searchFailed (deepSearch testJSONDocument "query/options/batchSize") = false
    ∧ searchFailed (deepSearch testJSONDocument "query/options/booleanHere") = false
    ∧ searchFailed (deepSearch testJSONDocument "") = true
    ∧ searchFailed (deepSearch testJSONDocument "missingKey") = true
    ∧ searchFailed (deepSearch testJSONDocument "query/filter/nottamap") = true
    ∧ searchFailed (deepSearch testJSONDocument "query/options/someArray") = true := by
  refine ⟨fun d => by simp [deepSearch, searchFailed], ?_, ?_, ?_, rfl, rfl, rfl, rfl, rfl, rfl, rfl⟩
  · intro d segs k hk
    cases segs with
    | nil => simp [deepSearchSegs, hk, searchFailed]
    | cons s rest => simp [deepSearchSegs, hk, searchFailed]
  · intro d k segs v hs hk hobj
    cases segs with
    | nil => exact absurd rfl hs
    | cons s rest =>
      cases v <;> simp_all [deepSearchSegs, jsonIsObj, searchFailed]
  · intro d k v hk hscalar
    cases v <;> simp_all [deepSearchSegs, renderScalar, searchFailed]

/-- Witness for **C9**: concrete instantiations of the hypothesised
clauses on the S5 document — `missingKey` is absent, `query/filter` is a
string traversed into, and `someArray` is a non-scalar resolution. -/
theorem deepSearch_scenarios_witness :
    lookupKey testJSONDocument "missingKey" = none ∧
    searchFailed (deepSearchSegs testJSONDocument ["missingKey"]) = true ∧
    searchFailed (deepSearchSegs [("filter", JSONValue.str "year=1979")]
      ["filter", "nottamap"]) = true ∧
    searchFailed (deepSearchSegs [("someArray", JSONValue.arr [.str "test"])]
      ["someArray"]) = true :=
  ⟨rfl,
   deepSearch_scenarios.2.1 testJSONDocument [] "missingKey" rfl,
   deepSearch_scenarios.2.2.1 [("filter", JSONValue.str "year=1979")] "filter" ["nottamap"]
     (.str "year=1979") (by simp) rfl rfl,
   deepSearch_scenarios.2.2.2.1 [("someArray", JSONValue.arr [.str "test"])] "someArray"
     (.arr [.str "test"]) rfl rfl⟩

/-- Witness for **C8**: a document carrying a caching policy with pending
client conditionals is stored by reference with that state cleared. -/
theorem writeCache_reference_reset_witness :
    ({ emptyDoc with CachingPolicy := some { clientConditionals := [("inm", "x")] } } : HTTPDocument).CachingPolicy =
      some { clientConditionals := [("inm", "x")] } ∧
    (WriteCache true (fun _ => ([], none)) id none none
        { emptyDoc with CachingPolicy := some { clientConditionals := [("inm", "x")] } }
        []).1.storedDoc.CachingPolicy =
      some (CachingPolicy.ResetClientConditionals { clientConditionals := [("inm", "x")] }) :=
  ⟨rfl,
   (writeCache_reference_reset (fun _ => ([], none)) id none none
      { emptyDoc with CachingPolicy := some { clientConditionals := [("inm", "x")] } }
      []).2.2 { clientConditionals := [("inm", "x")] } rfl⟩
